import Mathlib

/-!
Verification model of `artisan_runner.go` (MartijnvanderBruggen/artisan-runner).

The Go program is a CLI launcher: a fixed catalog of four `php artisan`
maintenance tasks, a numeric selection parser (`parseNumbers`), a JSON
preference store (`saveLastSelections` / `loadLastSelections`), an
interactive-picker default computation and pick translation, and a sequential
executor loop in `main` that streams each child process and continues past
failures.

Strings are modelled at the level of character lists (Go strings are byte
slices; all inputs of interest are ASCII). `strings.Split(s, ",")` becomes
`splitComma`, `strings.TrimSpace` becomes `trim` (the Latin-1 part of
`unicode.IsSpace`; the exotic Unicode space ranges never occur in the inputs
the program handles), and `strconv.Atoi` becomes `atoi` (optional sign, base-10
digits, 64-bit signed range check). Effects (file system, child processes,
the prompt) are modelled as explicit oracle parameters.
-/

namespace ArtisanRunner

instance {ε α : Type} [DecidableEq ε] [DecidableEq α] : DecidableEq (Except ε α) := fun x y =>
  match x, y with
  | Except.ok a, Except.ok b =>
    if h : a = b then isTrue (by rw [h]) else isFalse (by intro hc; cases hc; exact h rfl)
  | Except.error e, Except.error f =>
    if h : e = f then isTrue (by rw [h]) else isFalse (by intro hc; cases hc; exact h rfl)
  | Except.ok _, Except.error _ => isFalse (by intro hc; cases hc)
  | Except.error _, Except.ok _ => isFalse (by intro hc; cases hc)

/-- Whitespace test matching `unicode.IsSpace` on the Latin-1 range, used by
`strings.TrimSpace` in the source. -/
def isSpaceChar (c : Char) : Bool :=
  c = ' ' || c = '\t' || c = '\n' || c = '\r' ||
  c = Char.ofNat 11 || c = Char.ofNat 12 || c = Char.ofNat 0x85 || c = Char.ofNat 0xA0

/-- Model of Go `strings.TrimSpace` on a character list. -/
def trim (cs : List Char) : List Char :=
  ((cs.dropWhile isSpaceChar).reverse.dropWhile isSpaceChar).reverse

/-- Model of Go `strings.Split(s, ",")`: split at every comma; the empty
string yields one empty segment, matching `strings.Split("", ",") = [""]`. -/
def splitComma : List Char → List (List Char)
  | [] => [[]]
  | c :: rest =>
    if c = ',' then [] :: splitComma rest
    else
      match splitComma rest with
      | s :: ss => (c :: s) :: ss
      | [] => [[c]]

/-- Accumulate base-10 digits; `none` on the first non-digit character. -/
def digitsValAux : List Char → Nat → Option Nat
  | [], acc => some acc
  | c :: rest, acc =>
    if '0' ≤ c ∧ c ≤ '9' then digitsValAux rest (acc * 10 + (c.toNat - '0'.toNat))
    else none

/-- Value of a non-empty all-digit string; `none` if empty or any non-digit. -/
def digitsVal : List Char → Option Nat
  | [] => none
  | c :: rest => digitsValAux (c :: rest) 0

/-- Model of Go `strconv.Atoi`: optional `+`/`-` sign, one or more base-10
digits, failing (with `ErrSyntax` or `ErrRange`, both collapsed to `none`)
otherwise or when the value does not fit a signed 64-bit integer. -/
def atoi (cs : List Char) : Option Int :=
  match cs with
  | '+' :: rest =>
    match digitsVal rest with
    | some n => if n ≤ 9223372036854775807 then some (n : Int) else none
    | none => none
  | '-' :: rest =>
    match digitsVal rest with
    | some n => if n ≤ 9223372036854775808 then some (-(n : Int)) else none
    | none => none
  | _ =>
    match digitsVal cs with
    | some n => if n ≤ 9223372036854775807 then some (n : Int) else none
    | none => none

/-- The sequence `[1, 2, ..., max]` built by the `p == "0"` branch of
`parseNumbers` (`for i := 1; i <= max; i++ { out = append(out, i) }`). -/
def rangeList (max : Nat) : List Int :=
  (List.range max).map (fun (i : Nat) => (i : Int) + 1)

/-- Inner loop of `dedupe`: the Go `seen` map becomes a list of already-seen
values, the first occurrence of each value is kept in order. -/
def dedupeAux (seen : List Int) : List Int → List Int
  | [] => []
  | v :: rest => if v ∈ seen then dedupeAux seen rest else v :: dedupeAux (v :: seen) rest

/-- Model of `dedupe` in the source: drop repeated values, keeping first
occurrences in order. -/
def dedupe (xs : List Int) : List Int := dedupeAux [] xs

/-- Go `%q` formatting of a plain token (no characters needing escapes occur
in the tokens the claims exercise): surrounding double quotes. -/
def quoteStr (cs : List Char) : String :=
  "\"" ++ String.mk cs ++ "\""

/-- Loop body of `parseNumbers` over the comma-split segments, carrying the
accumulated `out` slice. Mirrors the source line by line: trim the segment,
skip it if empty, return `[1..max]` immediately on the literal `"0"`, fail
with `invalid number: %q` if `strconv.Atoi` fails, fail with
`choice out of range: %d` if the value is outside `[1, max]`, else append. -/
def parseNumbersAux (max : Nat) : List (List Char) → List Int → Except String (List Int)
  | [], out => Except.ok (dedupe out)
  | p :: rest, out =>
    if trim p = [] then parseNumbersAux max rest out
    else if trim p = ['0'] then Except.ok (rangeList max)
    else
      match atoi (trim p) with
      | none => Except.error ("invalid number: " ++ quoteStr (trim p))
      | some n =>
        if n < 1 ∨ n > (max : Int) then Except.error ("choice out of range: " ++ toString n)
        else parseNumbersAux max rest (out ++ [n])

/-- Model of `parseNumbers(s string, max int)` on a character list. -/
def parseNumbersL (cs : List Char) (max : Nat) : Except String (List Int) :=
  parseNumbersAux max (splitComma cs) []

/-- Model of `parseNumbers` taking a Lean string. -/
def parseNumbers (s : String) (max : Nat) : Except String (List Int) :=
  parseNumbersL s.data max

/-- A segment the parser accepts without effect on failure: empty after
trimming, or a base-10 integer within `[1, max]`. The literal `"0"` is not
`segValid` for any `max`, since it parses to `0` which is below range. -/
def segValid (max : Nat) (p : List Char) : Bool :=
  if trim p = [] then true
  else
    match atoi (trim p) with
    | none => false
    | some n => if n < 1 ∨ n > (max : Int) then false else true

/-- A segment on which the parser's error branches fire: non-empty after
trimming, not the `"0"` sentinel, and either not an integer or out of
range. -/
def segFails (max : Nat) (p : List Char) : Bool :=
  if trim p = [] then false
  else if trim p = ['0'] then false
  else
    match atoi (trim p) with
    | none => true
    | some n => if n < 1 ∨ n > (max : Int) then true else false

/-- The error message the parser produces for a failing segment. -/
def offendMsg (p : List Char) : String :=
  match atoi (trim p) with
  | none => "invalid number: " ++ quoteStr (trim p)
  | some n => "choice out of range: " ++ toString n

/-- The integers listed by the non-empty trimmed segments, in input order
and with duplicates kept (the claim-side reading of "the listed
integers"). -/
def segInts : List (List Char) → List Int
  | [] => []
  | p :: rest =>
    if trim p = [] then segInts rest
    else
      match atoi (trim p) with
      | some n => n :: segInts rest
      | none => segInts rest

/-- Catalog entry: display label plus argv vector, as in the `Task` struct. -/
structure Task where
  label : String
  cmd : List String
deriving DecidableEq, Repr, Inhabited

/-- The fixed compile-time catalog `tasks` from the source. -/
def tasks : List Task :=
  [⟨"php artisan optimize:clear", ["php", "artisan", "optimize:clear"]⟩,
   ⟨"php artisan config:clear", ["php", "artisan", "config:clear"]⟩,
   ⟨"php artisan route:clear", ["php", "artisan", "route:clear"]⟩,
   ⟨"php artisan cache:clear", ["php", "artisan", "cache:clear"]⟩]

/-! ## Interactive picker (default computation and pick translation) -/

/-- The pre-checked defaults computed from a loaded prior selection `last`
(source lines 100–109): when `len(last) == len(tasks)` only `[Run ALL]` is
pre-checked; otherwise each in-range index contributes its task label, and
out-of-range indices are skipped. -/
def pickerDefault (last : List Int) : List String :=
  if last.length = tasks.length then ["[Run ALL]"]
  else
    last.filterMap (fun i =>
      if 1 ≤ i ∧ i ≤ (tasks.length : Int) then some ((tasks.getD (i.toNat - 1) default).label)
      else none)

/-- The picker only sets a default when the load succeeded and the stored
list is non-empty (source line 99). -/
def pickerDefaultFromLoad (loadResult : Except String (List Int)) : List String :=
  match loadResult with
  | Except.error _ => []
  | Except.ok last => if last = [] then [] else pickerDefault last

/-- The inner label search of the pick-translation loop (source lines
131–137): index of the first task whose label equals `p`. -/
def findLabelIdx (p : String) : List Task → Option Nat
  | [] => none
  | t :: rest => if t.label = p then some 0 else (findLabelIdx p rest).map (· + 1)

/-- Translation of the picker's chosen labels back to 1-based indices
(source lines 117–139): if `[Run ALL]` was picked the whole catalog is
selected; otherwise each pick maps to the first matching label's 1-based
position, unknown labels being dropped. -/
def translatePicks (picks : List String) : List Int :=
  if "[Run ALL]" ∈ picks then rangeList tasks.length
  else picks.filterMap (fun p => (findLabelIdx p tasks).map (fun i => (i : Int) + 1))

/-! ## Preference store

The Go standard `encoding/json` codec is modelled at the level of JSON
trees: `json.MarshalIndent` produces the tree the struct marshals to, and
`json.Unmarshal` is the tree decoder with Go's zero-value semantics for
missing or `null` fields. The file system is abstracted away: `save` returns
the stored document and `load` takes it as input. -/

/-- JSON document tree. -/
inductive Json where
  | null : Json
  | jbool : Bool → Json
  | num : Int → Json
  | str : String → Json
  | arr : List Json → Json
  | obj : List (String × Json) → Json

/-- The `AppConfig` struct: `last_selections` plus `saved_at`. -/
structure AppConfig where
  lastSelections : List Int
  savedAt : String
deriving DecidableEq, Repr

/-- Marshalling of `AppConfig` under its struct tags, fields in declaration
order as `encoding/json` emits them. -/
def encodeAppConfig (cfg : AppConfig) : Json :=
  Json.obj [("last_selections", Json.arr (cfg.lastSelections.map Json.num)),
            ("saved_at", Json.str cfg.savedAt)]

/-- First binding of a key in an object's field list. -/
def lookupField : List (String × Json) → String → Option Json
  | [], _ => none
  | (k, v) :: rest, key => if k = key then some v else lookupField rest key

/-- Decode a JSON array of numbers into a Go `[]int`. -/
def decodeNums : List Json → Except String (List Int)
  | [] => Except.ok []
  | Json.num n :: rest => (decodeNums rest).map (fun xs => n :: xs)
  | _ :: _ => Except.error "json: cannot unmarshal element into Go value of type int"

/-- Decode a JSON value into a Go `[]int` field: `null` leaves the zero
value, an array decodes elementwise, anything else is a type error. -/
def decodeIntList : Json → Except String (List Int)
  | Json.null => Except.ok []
  | Json.arr es => decodeNums es
  | _ => Except.error "json: cannot unmarshal into Go value of type []int"

/-- Decode a JSON value into a Go `string` field. -/
def decodeString : Json → Except String String
  | Json.null => Except.ok ""
  | Json.str s => Except.ok s
  | _ => Except.error "json: cannot unmarshal into Go value of type string"

/-- Unmarshalling of an `AppConfig`: missing fields keep their zero values,
a top-level `null` leaves the whole zero struct, a non-object fails. -/
def unmarshalAppConfig (j : Json) : Except String AppConfig :=
  match j with
  | Json.obj fields =>
    match (match lookupField fields "last_selections" with
           | none => Except.ok []
           | some v => decodeIntList v) with
    | Except.error e => Except.error e
    | Except.ok ls =>
      match (match lookupField fields "saved_at" with
             | none => Except.ok ""
             | some v => decodeString v) with
      | Except.error e => Except.error e
      | Except.ok sa => Except.ok ⟨ls, sa⟩
  | Json.null => Except.ok ⟨[], ""⟩
  | _ => Except.error "json: cannot unmarshal into Go value of type main.AppConfig"

/-- Model of `saveLastSelections`: build the record with the given indices
and the current timestamp and marshal it; the document that reaches the
file. -/
def saveLastSelections (idxs : List Int) (now : String) : Json :=
  encodeAppConfig ⟨idxs, now⟩

/-- Model of `loadLastSelections`: unmarshal the stored document and return
its `last_selections` field. -/
def loadLastSelections (stored : Json) : Except String (List Int) :=
  (unmarshalAppConfig stored).map AppConfig.lastSelections

/-! ## Main: selection resolution, save step, executor loop -/

/-- Console output line, tagged with the prefix symbol the source uses
(`info`, `warn`, `ok`, `step`, `errMsg`). -/
inductive Event where
  | infoEv : String → Event
  | warnEv : String → Event
  | okEv : String → Event
  | stepEv : String → Event
  | errEv : String → Event
deriving DecidableEq, Repr

/-- The `--use-last` branch of `main` (source lines 74–83): a load failure
is fatal with a wrapped message; an empty stored list is fatal with
`no last selections saved`; otherwise the loaded list is used as-is, with
no range validation. -/
def resolveUseLast (loadResult : Except String (List Int)) : Except String (List Int) :=
  match loadResult with
  | Except.error e => Except.error ("could not load last selections: " ++ e)
  | Except.ok last =>
    if last = [] then Except.error "no last selections saved" else Except.ok last

/-- Selection-source dispatch of `main` (source lines 65–140): a non-empty
`--numbers` string wins, then `--use-last`, then the interactive picker
(whose chosen labels are the oracle `picks`). -/
def determineSelection (numbers : String) (useLast : Bool)
    (loadResult : Except String (List Int)) (picks : List String) :
    Except String (List Int) :=
  if numbers ≠ "" then parseNumbers numbers tasks.length
  else if useLast then resolveUseLast loadResult
  else Except.ok (translatePicks picks)

/-- Executor loop of `main` (source lines 154–175) with the run outcome of
each task index supplied by the oracle `exec`: out-of-range indices are
skipped with a warning; otherwise the command line is echoed and the task's
failure is reported for that task alone, execution continuing either way. -/
def execLoop (exec : Int → Except String Unit) : List Int → List Event
  | [] => []
  | idx :: rest =>
    if idx < 1 ∨ idx > (tasks.length : Int) then
      Event.warnEv ("Skipping invalid index: " ++ toString idx) :: execLoop exec rest
    else
      let task := tasks.getD (idx.toNat - 1) default
      Event.stepEv ("Running: " ++ String.intercalate " " task.cmd) ::
      (match exec idx with
       | Except.error e => Event.errEv ("Error running '" ++ task.label ++ "': " ++ e)
       | Except.ok _ => Event.okEv "Done\n") :: execLoop exec rest

/-- Tail of `main` after the selection is resolved (source lines 142–178):
fatal `no commands selected` on an empty selection; otherwise the save is
attempted unless `--no-save` and its result is discarded (`_ =` in the
source), the executor loop runs, and the run ends successfully (exit 0)
regardless of individual task outcomes. -/
def runPhase (noSave : Bool) (saveResult : Except String Unit) (sel : List Int)
    (exec : Int → Except String Unit) : List Event × Nat :=
  if sel = [] then ([Event.errEv "no commands selected"], 1)
  else
    let saveOutcome : Except String Unit := if noSave then Except.ok () else saveResult
    let _ := saveOutcome
    (Event.okEv "Executing selected commands...\n" ::
       (execLoop exec sel ++ [Event.okEv "All selected commands executed."]), 0)

/-- End-to-end model of `main` past flag parsing and path resolution: the
console events produced and the process exit code, with the preference-store
load result, the save outcome, the picker's picks and each task's run
outcome supplied as oracles. -/
def mainModel (numbers : String) (useLast noSave : Bool)
    (loadResult : Except String (List Int)) (saveResult : Except String Unit)
    (picks : List String) (exec : Int → Except String Unit) : List Event × Nat :=
  match determineSelection numbers useLast loadResult picks with
  | Except.error e => ([Event.errEv e], 1)
  | Except.ok sel => runPhase noSave saveResult sel exec

/-- The `Running:` lines of an event trace: which tasks were attempted, in
order. -/
def stepsOf (evs : List Event) : List String :=
  evs.filterMap (fun e => match e with | Event.stepEv m => some m | _ => none)

/-- The error lines of an event trace. -/
def errorsOf (evs : List Event) : List String :=
  evs.filterMap (fun e => match e with | Event.errEv m => some m | _ => none)

/-! ## Helper lemmas -/

theorem atoi_nil : atoi [] = none := rfl

theorem atoi_zero_char : atoi ['0'] = some 0 := rfl

/-- Values surviving `dedupeAux` come from the input list. -/
theorem mem_dedupeAux (seen xs : List Int) (n : Int) (h : n ∈ dedupeAux seen xs) : n ∈ xs := by
  induction xs generalizing seen with
  | nil => simp [dedupeAux] at h
  | cons v rest ih =>
    by_cases hv : v ∈ seen
    · simp only [dedupeAux, if_pos hv] at h
      exact List.mem_cons_of_mem _ (ih seen h)
    · simp only [dedupeAux, if_neg hv, List.mem_cons] at h
      rcases h with h | h
      · simp [h]
      · exact List.mem_cons_of_mem _ (ih _ h)

/-- Values surviving `dedupe` come from the input list. -/
theorem mem_dedupe (xs : List Int) (n : Int) (h : n ∈ dedupe xs) : n ∈ xs :=
  mem_dedupeAux [] xs n h

/-- Membership in the run-all expansion `[1..max]`. -/
theorem mem_rangeList (max : Nat) (n : Int) : n ∈ rangeList max ↔ 1 ≤ n ∧ n ≤ (max : Int) := by
  constructor
  · intro h
    simp only [rangeList] at h
    rcases List.mem_map.1 h with ⟨i, hi, heq⟩
    rw [List.mem_range] at hi
    subst heq
    omega
  · rintro ⟨h1, h2⟩
    simp only [rangeList]
    refine List.mem_map.2 ⟨(n - 1).toNat, ?_, ?_⟩
    · rw [List.mem_range]; omega
    · omega

/-- Unpacking `segValid` on a segment with non-empty trimmed content. -/
theorem segValid_some (max : Nat) (p : List Char) (ht : trim p ≠ [])
    (h : segValid max p = true) :
    ∃ n, atoi (trim p) = some n ∧ ¬(n < 1 ∨ n > (max : Int)) := by
  simp only [segValid, if_neg ht] at h
  cases hao : atoi (trim p) with
  | none => simp only [hao] at h; exact absurd h (by simp)
  | some n =>
    simp only [hao] at h
    by_cases hr : n < 1 ∨ n > (max : Int)
    · rw [if_pos hr] at h; exact absurd h (by simp)
    · exact ⟨n, rfl, hr⟩

/-- A `segValid` segment is never the literal `"0"`: `"0"` parses to `0`,
which the range check rejects. -/
theorem segValid_ne_zero (max : Nat) (p : List Char) (h : segValid max p = true) :
    trim p ≠ ['0'] := by
  intro hc
  have ht : trim p ≠ [] := by rw [hc]; simp
  obtain ⟨n, hao, hr⟩ := segValid_some max p ht h
  rw [hc, atoi_zero_char] at hao
  have hn : n = 0 := (Option.some.inj hao).symm
  exact hr (Or.inl (by omega))

/-- Unpacking `segFails`. -/
theorem segFails_spec (max : Nat) (p : List Char) (h : segFails max p = true) :
    trim p ≠ [] ∧ trim p ≠ ['0'] ∧
      (atoi (trim p) = none ∨ ∃ n, atoi (trim p) = some n ∧ (n < 1 ∨ n > (max : Int))) := by
  by_cases ht : trim p = []
  · simp only [segFails, if_pos ht] at h
    exact absurd h (by simp)
  · by_cases h0 : trim p = ['0']
    · simp only [segFails, if_neg ht, if_pos h0] at h
      exact absurd h (by simp)
    · refine ⟨ht, h0, ?_⟩
      cases hao : atoi (trim p) with
      | none => exact Or.inl rfl
      | some n =>
        right
        refine ⟨n, rfl, ?_⟩
        simp only [segFails, if_neg ht, if_neg h0, hao] at h
        by_cases hr : n < 1 ∨ n > (max : Int)
        · exact hr
        · rw [if_neg hr] at h; exact absurd h (by simp)

/-- The listed integers of `p :: rest` split into those of `[p]` and of
`rest`. -/
theorem segInts_cons (p : List Char) (rest : List (List Char)) :
    segInts (p :: rest) = segInts [p] ++ segInts rest := by
  by_cases ht : trim p = []
  · simp [segInts, ht]
  · cases hao : atoi (trim p) with
    | none => simp [segInts, ht, hao]
    | some n => simp [segInts, ht, hao]

/-- One parser step over a `segValid` segment: the accumulator grows by the
segment's listed integers and parsing continues. -/
theorem parseNumbersAux_cons_valid (max : Nat) (p : List Char) (rest : List (List Char))
    (acc : List Int) (h : segValid max p = true) :
    parseNumbersAux max (p :: rest) acc = parseNumbersAux max rest (acc ++ segInts [p]) := by
  by_cases ht : trim p = []
  · simp only [parseNumbersAux, if_pos ht, segInts, List.append_nil]
  · obtain ⟨n, hao, hr⟩ := segValid_some max p ht h
    have h0 : trim p ≠ ['0'] := segValid_ne_zero max p h
    simp only [parseNumbersAux, if_neg ht, if_neg h0, hao, if_neg hr, segInts]

/-- Processing only `segValid` segments accumulates exactly the listed
integers and ends with the deduplicated accumulator. -/
theorem parseNumbersAux_valid (max : Nat) :
    ∀ (parts : List (List Char)) (acc : List Int),
    (∀ p ∈ parts, segValid max p = true) →
    parseNumbersAux max parts acc = Except.ok (dedupe (acc ++ segInts parts)) := by
  intro parts
  induction parts with
  | nil => intro acc _; simp [parseNumbersAux, segInts]
  | cons p rest ih =>
    intro acc h
    rw [parseNumbersAux_cons_valid max p rest acc (h p (List.mem_cons_self p rest)),
      ih (acc ++ segInts [p]) (fun q hq => h q (List.mem_cons_of_mem p hq)),
      List.append_assoc, ← segInts_cons]

/-- A `"0"` segment preceded only by `segValid` segments makes the parser
return the full `[1..max]` immediately, whatever follows. -/
theorem parseNumbersAux_zero (max : Nat) :
    ∀ (pre post : List (List Char)) (z : List Char) (acc : List Int),
    trim z = ['0'] →
    (∀ p ∈ pre, segValid max p = true) →
    parseNumbersAux max (pre ++ z :: post) acc = Except.ok (rangeList max) := by
  intro pre
  induction pre with
  | nil =>
    intro post z acc hz _
    have hne : trim z ≠ [] := by rw [hz]; simp
    simp only [List.nil_append, parseNumbersAux, if_neg hne, if_pos hz]
  | cons p rest ih =>
    intro post z acc hz h
    rw [List.cons_append,
      parseNumbersAux_cons_valid max p (rest ++ z :: post) acc (h p (List.mem_cons_self p rest))]
    exact ih post z (acc ++ segInts [p]) hz (fun q hq => h q (List.mem_cons_of_mem p hq))

/-- A failing segment preceded only by `segValid` segments makes the parser
fail with the message naming that segment, whatever follows. -/
theorem parseNumbersAux_fail (max : Nat) :
    ∀ (pre post : List (List Char)) (bad : List Char) (acc : List Int),
    segFails max bad = true →
    (∀ p ∈ pre, segValid max p = true) →
    parseNumbersAux max (pre ++ bad :: post) acc = Except.error (offendMsg bad) := by
  intro pre
  induction pre with
  | nil =>
    intro post bad acc hbad _
    obtain ⟨ht, h0, hcase⟩ := segFails_spec max bad hbad
    rcases hcase with hao | ⟨n, hao, hr⟩
    · simp only [List.nil_append, parseNumbersAux, if_neg ht, if_neg h0, hao, offendMsg]
    · simp only [List.nil_append, parseNumbersAux, if_neg ht, if_neg h0, hao, if_pos hr, offendMsg]
  | cons p rest ih =>
    intro post bad acc hbad h
    rw [List.cons_append,
      parseNumbersAux_cons_valid max p (rest ++ bad :: post) acc (h p (List.mem_cons_self p rest))]
    exact ih post bad (acc ++ segInts [p]) hbad (fun q hq => h q (List.mem_cons_of_mem p hq))

/-- Every integer in a successful parse lies in `[1, max]`, given the
accumulator already does. -/
theorem parseNumbersAux_ok_range (max : Nat) :
    ∀ (parts : List (List Char)) (acc out : List Int),
    (∀ n ∈ acc, 1 ≤ n ∧ n ≤ (max : Int)) →
    parseNumbersAux max parts acc = Except.ok out →
    ∀ n ∈ out, 1 ≤ n ∧ n ≤ (max : Int) := by
  intro parts
  induction parts with
  | nil =>
    intro acc out hacc heq n hn
    simp only [parseNumbersAux] at heq
    cases heq
    exact hacc n (mem_dedupe acc n hn)
  | cons p rest ih =>
    intro acc out hacc heq n hn
    by_cases ht : trim p = []
    · simp only [parseNumbersAux, if_pos ht] at heq
      exact ih acc out hacc heq n hn
    · by_cases h0 : trim p = ['0']
      · simp only [parseNumbersAux, if_neg ht, if_pos h0] at heq
        cases heq
        exact (mem_rangeList max n).1 hn
      · cases hao : atoi (trim p) with
        | none =>
          simp only [parseNumbersAux, if_neg ht, if_neg h0, hao] at heq
          cases heq
        | some m =>
          simp only [parseNumbersAux, if_neg ht, if_neg h0, hao] at heq
          by_cases hr : m < 1 ∨ m > (max : Int)
          · rw [if_pos hr] at heq; cases heq
          · rw [if_neg hr] at heq
            refine ih (acc ++ [m]) out ?_ heq n hn
            intro k hk
            rcases List.mem_append.1 hk with hk | hk
            · exact hacc k hk
            · simp only [List.mem_singleton] at hk
              subst hk
              constructor <;> omega

/-- The first matching label's index is inside the searched list. -/
theorem findLabelIdx_lt (p : String) :
    ∀ (ts : List Task) (i : Nat), findLabelIdx p ts = some i → i < ts.length := by
  intro ts
  induction ts with
  | nil => intro i h; simp [findLabelIdx] at h
  | cons t rest ih =>
    intro i h
    simp only [findLabelIdx] at h
    by_cases ht : t.label = p
    · rw [if_pos ht] at h
      cases h
      simp
    · rw [if_neg ht] at h
      cases hrec : findLabelIdx p rest with
      | none => rw [hrec] at h; simp at h
      | some j =>
        rw [hrec] at h
        simp only [Option.map] at h
        cases h
        have := ih j hrec
        simp only [List.length_cons]
        omega

/-- A guarded `filterMap` is filtering followed by mapping. -/
theorem filterMap_ite_guard {α β : Type} (P : α → Prop) [DecidablePred P] (f : α → β) :
    ∀ l : List α,
      (l.filterMap fun a => if P a then some (f a) else none) =
        (l.filter fun a => decide (P a)).map f := by
  intro l
  induction l with
  | nil => rfl
  | cons a l ih =>
    by_cases h : P a
    · simp [List.filterMap_cons, List.filter_cons, h, ih]
    · simp [List.filterMap_cons, List.filter_cons, h, ih]

/-! ## Claim theorems: the selection parser (C1, C5, C6, C10) -/

/-- C1 counterexample: the input `"x,0"` contains a `"0"` token, yet
`parseNumbers` fails on the invalid token `"x"` that precedes it instead of
yielding the full sequence `[1..4]`, refuting the claim that a `"0"` token
anywhere yields `[1..N]` regardless of other tokens present. -/
theorem c1_counterexample :
    parseNumbers "x,0" 4 = Except.error "invalid number: \"x\"" ∧
      parseNumbers "x,0" 4 ≠ Except.ok (ArtisanRunner.rangeList 4) := by
  constructor
  · decide
  · decide

/-- C1 (amended): if the input's comma segments are `pre ++ z :: post` where
`z` trims to the literal `"0"` and every segment of `pre` is empty after
trimming or an in-range integer, then `parseNumbers` yields exactly the full
sequence `[1..max]`, regardless of what tokens (including invalid or
out-of-range ones) follow the `"0"`. Tokens before the `"0"` must themselves
be valid, which is the correction the counterexample forces. -/
theorem parseNumbers_zero_override (s : String) (max : Nat)
    (pre post : List (List Char)) (z : List Char)
    (hsplit : splitComma s.data = pre ++ z :: post)
    (hz : trim z = ['0'])
    (hpre : ∀ p ∈ pre, segValid max p = true) :
    parseNumbers s max = Except.ok (rangeList max) := by
  rw [parseNumbers, parseNumbersL, hsplit]
  exact parseNumbersAux_zero max pre post z [] hz hpre

/-- C1 witness: `"3,0,junk"` has a valid token before the `"0"` and garbage
after it, and parses to the full `[1..4]`. -/
theorem zero_override_witness :
    parseNumbers "3,0,junk" 4 = Except.ok (ArtisanRunner.rangeList 4) ∧
      ArtisanRunner.rangeList 4 = [1, 2, 3, 4] :=
  ⟨parseNumbers_zero_override "3,0,junk" 4 [['3']] [['j', 'u', 'n', 'k']] ['0']
      (by decide) (by decide) (by decide),
    by decide⟩

/-- C5: for every input whose non-empty trimmed segments are all base-10
integers in `[1, max]` (such segments can never be the `"0"` sentinel, which
parses to the out-of-range 0), `parseNumbers` succeeds and returns exactly
the listed integers deduplicated in first-occurrence order. -/
theorem parseNumbers_valid_tokens (s : String) (max : Nat)
    (h : ∀ p ∈ splitComma s.data, segValid max p = true) :
    parseNumbers s max = Except.ok (dedupe (segInts (splitComma s.data))) := by
  rw [parseNumbers, parseNumbersL]
  have hv := parseNumbersAux_valid max (splitComma s.data) [] h
  simpa using hv

/-- C5 witness: with a 4-entry catalog, `"2,4,2"` resolves to `[2, 4]` —
deduplicated, order preserved, not sorted. -/
theorem valid_tokens_witness :
    parseNumbers "2,4,2" 4 = Except.ok [2, 4] :=
  (parseNumbers_valid_tokens "2,4,2" 4 (by decide)).trans (by decide)

/-- C6 counterexample: the input `"0,x"` contains the trimmed non-empty
segment `"x"`, which is not a base-10 integer, yet `parseNumbers` succeeds
with the full sequence because the preceding `"0"` sentinel returns before
the offending token is examined — refuting the claim that any input
containing a bad token fails. -/
theorem c6_counterexample :
    parseNumbers "0,x" 4 = Except.ok [1, 2, 3, 4] := by decide

/-- C6 (amended): if the input's comma segments are `pre ++ bad :: post`
where `bad` is non-empty after trimming, is not the `"0"` sentinel, and is
either not a base-10 integer or out of `[1, max]`, and every segment of
`pre` is empty or a valid in-range integer (in particular no `"0"` sentinel
precedes the offending token — the correction the counterexample forces),
then `parseNumbers` fails with the error naming the offending token and
returns no result list. -/
theorem parseNumbers_fails_on_bad_token (s : String) (max : Nat)
    (pre post : List (List Char)) (bad : List Char)
    (hsplit : splitComma s.data = pre ++ bad :: post)
    (hbad : segFails max bad = true)
    (hpre : ∀ p ∈ pre, segValid max p = true) :
    parseNumbers s max = Except.error (offendMsg bad) := by
  rw [parseNumbers, parseNumbersL, hsplit]
  exact parseNumbersAux_fail max pre post bad [] hbad hpre

/-- C6 witness: `"1,7"` with a 4-entry catalog fails naming the
out-of-range value, and `"1,x"` fails naming the non-numeric token. -/
theorem fail_token_witness :
    parseNumbers "1,7" 4 = Except.error "choice out of range: 7" ∧
      parseNumbers "1,x" 4 = Except.error "invalid number: \"x\"" :=
  ⟨(parseNumbers_fails_on_bad_token "1,7" 4 [['1']] [] ['7'] (by decide) (by decide)
      (by decide)).trans (by decide),
    (parseNumbers_fails_on_bad_token "1,x" 4 [['1']] [] ['x'] (by decide) (by decide)
      (by decide)).trans (by decide)⟩

/-- C10: in the parser loop, a segment that trims to the literal `"0"`
triggers the run-all expansion, while any other segment whose parsed value
is the integer 0 (such as `"00"`, `"+0"`, `"-0"`) instead hits the
out-of-range error, since 0 is below the valid range `[1, max]`. -/
theorem zero_sentinel_literal_only (max : Nat) (p : List Char)
    (rest : List (List Char)) (acc : List Int)
    (hz : atoi (trim p) = some 0) :
    parseNumbersAux max (p :: rest) acc =
      (if trim p = ['0'] then Except.ok (rangeList max)
       else Except.error "choice out of range: 0") := by
  have ht : trim p ≠ [] := by
    intro hc
    rw [hc, atoi_nil] at hz
    cases hz
  by_cases h0 : trim p = ['0']
  · simp only [parseNumbersAux, if_neg ht, if_pos h0]
  · have hr : (0 : Int) < 1 ∨ (0 : Int) > (max : Int) := Or.inl (by omega)
    simp only [parseNumbersAux, if_neg ht, if_neg h0, hz, if_pos hr]
    decide

/-- C10 witness: `"00"`, `"+0"` and `"-0"` all parse to 0 and fail with the
out-of-range error, while the literal `"0"` expands to the full catalog. -/
theorem zero_sentinel_witness :
    parseNumbersAux 4 [['0', '0']] [] = Except.error "choice out of range: 0" ∧
      parseNumbersAux 4 [['+', '0']] [] = Except.error "choice out of range: 0" ∧
      parseNumbersAux 4 [['-', '0']] [] = Except.error "choice out of range: 0" ∧
      parseNumbersAux 4 [['0']] [] = Except.ok (ArtisanRunner.rangeList 4) :=
  ⟨(zero_sentinel_literal_only 4 ['0', '0'] [] [] (by decide)).trans (by decide),
    (zero_sentinel_literal_only 4 ['+', '0'] [] [] (by decide)).trans (by decide),
    (zero_sentinel_literal_only 4 ['-', '0'] [] [] (by decide)).trans (by decide),
    (zero_sentinel_literal_only 4 ['0'] [] [] (by decide)).trans (by decide)⟩

/-! ## Claim theorems: picker defaults and selection ranges (C2, C4) -/

/-- No catalog slot (nor the out-of-bounds default) carries the synthetic
`[Run ALL]` label. -/
theorem tasks_getD_label_ne (k : Nat) : (tasks.getD k default).label ≠ "[Run ALL]" :=
  match k with
  | 0 => by decide
  | 1 => by decide
  | 2 => by decide
  | 3 => by decide
  | n + 4 => by
    have h : tasks.getD (n + 4) default = default := rfl
    rw [h]; decide

/-- C4 counterexample: the loaded prior selection `[9, 9, 9, 9]` covers no
catalog entry at all (no index of `[1..4]` occurs in it), yet because its
length equals the catalog size, only the synthetic `[Run ALL]` option is
pre-checked — refuting the claimed "if and only if the prior selection
covers the entire catalog". -/
theorem c4_counterexample :
    pickerDefault [9, 9, 9, 9] = ["[Run ALL]"] ∧
      (1 : Int) ∉ ([9, 9, 9, 9] : List Int) := by
  constructor
  · decide
  · decide

/-- C4 (amended): the `[Run ALL]` option is pre-checked exactly when the
prior selection's LENGTH equals the catalog size (not when it covers the
catalog — the correction the counterexample forces); otherwise the
pre-checked labels are exactly those of the in-range indices, in order,
out-of-range indices being silently ignored without failing. -/
theorem picker_default_by_length (last : List Int) :
    ("[Run ALL]" ∈ pickerDefault last ↔ last.length = tasks.length) ∧
      (last.length ≠ tasks.length →
        pickerDefault last =
          (last.filter fun i => decide (1 ≤ i ∧ i ≤ (tasks.length : Int))).map
            (fun i => (tasks.getD (i.toNat - 1) default).label)) := by
  constructor
  · constructor
    · intro hmem
      by_contra hne
      rw [pickerDefault, if_neg hne] at hmem
      rcases List.mem_filterMap.1 hmem with ⟨i, _, hi⟩
      by_cases hg : 1 ≤ i ∧ i ≤ (tasks.length : Int)
      · rw [if_pos hg] at hi
        exact tasks_getD_label_ne (i.toNat - 1) (Option.some.inj hi)
      · rw [if_neg hg] at hi
        cases hi
    · intro hlen
      rw [pickerDefault, if_pos hlen]
      simp
  · intro hne
    rw [pickerDefault, if_neg hne]
    exact filterMap_ite_guard (fun i => 1 ≤ i ∧ i ≤ (tasks.length : Int))
      (fun i => (tasks.getD (i.toNat - 1) default).label) last

/-- C4 witness: prior selection `[2, 9]` (length 2 ≠ 4) pre-checks exactly
the in-range task 2 by label, silently ignoring the out-of-range 9, and
does not pre-check `[Run ALL]`. -/
theorem picker_default_witness :
    pickerDefault [2, 9] = ["php artisan config:clear"] ∧
      "[Run ALL]" ∉ pickerDefault [2, 9] :=
  ⟨((picker_default_by_length [2, 9]).2 (by decide)).trans (by decide),
    fun hmem => absurd ((picker_default_by_length [2, 9]).1.mp hmem) (by decide)⟩

/-- C2 counterexample: with `--use-last` the loaded list `[5]` passes
through `resolveUseLast` unvalidated, so the selection handed to the
executor contains the index 5 although the catalog has only 4 entries (the
executor then skips it defensively with a warning) — refuting the claim
that every selection source yields only indices in `[1, N]`. -/
theorem c2_counterexample :
    resolveUseLast (Except.ok [5]) = Except.ok [5] ∧
      ¬ ((5 : Int) ≤ (tasks.length : Int)) ∧
      (mainModel "" true false (Except.ok [5]) (Except.ok ()) [] (fun _ => Except.ok ())).1 =
        [Event.okEv "Executing selected commands...\n",
         Event.warnEv "Skipping invalid index: 5",
         Event.okEv "All selected commands executed."] := by
  refine ⟨by decide, by decide, by decide⟩

/-- C2 (amended): the numeric-parse source and the interactive-picker
translation produce only indices in `[1, N]`; the `--use-last` source is
NOT validated (see the counterexample) and the executor skips out-of-range
indices defensively instead. -/
theorem selection_sources_in_range (s : String) (picks : List String) (out : List Int) :
    (parseNumbers s tasks.length = Except.ok out →
        ∀ n ∈ out, 1 ≤ n ∧ n ≤ (tasks.length : Int)) ∧
      (∀ n ∈ translatePicks picks, 1 ≤ n ∧ n ≤ (tasks.length : Int)) := by
  constructor
  · intro heq n hn
    rw [parseNumbers, parseNumbersL] at heq
    refine parseNumbersAux_ok_range tasks.length (splitComma s.data) [] out ?_ heq n hn
    intro k hk
    cases hk
  · intro n hn
    rw [translatePicks] at hn
    by_cases hall : "[Run ALL]" ∈ picks
    · rw [if_pos hall] at hn
      exact (mem_rangeList tasks.length n).1 hn
    · rw [if_neg hall] at hn
      rcases List.mem_filterMap.1 hn with ⟨p, _, hp⟩
      cases hidx : findLabelIdx p tasks with
      | none => rw [hidx] at hp; cases hp
      | some i =>
        rw [hidx] at hp
        simp only [Option.map] at hp
        have hlt := findLabelIdx_lt p tasks i hidx
        cases hp
        constructor <;> omega

/-- C2 witness: the parse of `"2,4,2"` contains 4, and 4 is within the
catalog range. -/
theorem selection_sources_witness :
    1 ≤ (4 : Int) ∧ (4 : Int) ≤ (tasks.length : Int) :=
  (selection_sources_in_range "2,4,2" [] [2, 4]).1 (by decide) 4 (by decide)

/-! ## Claim theorems: preference store round-trip (C7) -/

/-- Decoding the encoding of an integer list recovers it exactly. -/
theorem decodeNums_map_num (xs : List Int) : decodeNums (xs.map Json.num) = Except.ok xs := by
  induction xs with
  | nil => rfl
  | cons x xs ih =>
    simp only [List.map_cons, decodeNums, ih, Except.map]

/-- C7: round-trip — saving any list of integers through the Preference
Record JSON and loading it back returns exactly the same ordered list. -/
theorem save_load_roundtrip (idxs : List Int) (now : String) :
    loadLastSelections (saveLastSelections idxs now) = Except.ok idxs := by
  have hlook1 : lookupField
      [("last_selections", Json.arr (idxs.map Json.num)), ("saved_at", Json.str now)]
      "last_selections" = some (Json.arr (idxs.map Json.num)) := rfl
  have hlook2 : lookupField
      [("last_selections", Json.arr (idxs.map Json.num)), ("saved_at", Json.str now)]
      "saved_at" = some (Json.str now) := rfl
  rw [saveLastSelections, loadLastSelections]
  simp only [encodeAppConfig, unmarshalAppConfig, hlook1, hlook2, decodeIntList,
    decodeNums_map_num, decodeString, Except.map]

/-! ## Claim theorems: save-failure handling and use-last failure (C3, C8) -/

/-- C3 counterexample: with `--no-save` absent and the save operation
failing, the run still reports no error at all and exits 0, and its whole
observable outcome is identical to a run whose save succeeded — the
failure is silently discarded, refuting the claim that it is surfaced. -/
theorem c3_counterexample :
    (mainModel "1" false false (Except.ok []) (Except.error "disk full") []
        (fun _ => Except.ok ())).2 = 0 ∧
      errorsOf (mainModel "1" false false (Except.ok []) (Except.error "disk full") []
        (fun _ => Except.ok ())).1 = [] ∧
      mainModel "1" false false (Except.ok []) (Except.error "disk full") []
          (fun _ => Except.ok ()) =
        mainModel "1" false false (Except.ok []) (Except.ok ()) []
          (fun _ => Except.ok ()) := by
  refine ⟨by decide, by decide, by decide⟩

/-- C3 (amended): the result of the save operation is discarded by `main`
(`_ = saveLastSelections(...)` in the source): whether or not `--no-save`
is given, a failing save produces a run indistinguishable from one whose
save succeeded — the failure is never surfaced. -/
theorem save_failure_silently_discarded (numbers : String) (useLast noSave : Bool)
    (loadResult : Except String (List Int)) (e : String) (picks : List String)
    (exec : Int → Except String Unit) :
    mainModel numbers useLast noSave loadResult (Except.error e) picks exec =
      mainModel numbers useLast noSave loadResult (Except.ok ()) picks exec := by
  cases hd : determineSelection numbers useLast loadResult picks with
  | error e2 => simp [mainModel, hd]
  | ok sel =>
    by_cases hsel : sel = [] <;> simp [mainModel, hd, runPhase, hsel]

/-- C8 (amended): under `--use-last`, a load failure (no prior record) is
fatal with exit 1 and the wrapped `could not load last selections` error,
and an empty stored list is fatal with exit 1 and the
`no last selections saved` error — the quoted message belongs to the
empty-list case, not the no-prior-record case as claimed — and in both
cases no task is attempted. -/
theorem use_last_fatal (noSave : Bool) (saveRes : Except String Unit)
    (picks : List String) (exec : Int → Except String Unit) (e : String) :
    mainModel "" true noSave (Except.error e) saveRes picks exec =
        ([Event.errEv ("could not load last selections: " ++ e)], 1) ∧
      mainModel "" true noSave (Except.ok []) saveRes picks exec =
        ([Event.errEv "no last selections saved"], 1) ∧
      stepsOf (mainModel "" true noSave (Except.error e) saveRes picks exec).1 = [] ∧
      stepsOf (mainModel "" true noSave (Except.ok []) saveRes picks exec).1 = [] :=
  ⟨rfl, rfl, rfl, rfl⟩

/-- C8 counterexample: with no prior saved file the load fails and the run
dies with the wrapped `could not load last selections` error — the
`no last selections saved` message claimed for this case never appears. -/
theorem c8_counterexample :
    mainModel "" true false (Except.error "open config: no such file or directory")
        (Except.ok ()) [] (fun _ => Except.ok ()) =
      ([Event.errEv "could not load last selections: open config: no such file or directory"],
        1) ∧
      Event.errEv "no last selections saved" ∉
        (mainModel "" true false (Except.error "open config: no such file or directory")
          (Except.ok ()) [] (fun _ => Except.ok ())).1 := by
  refine ⟨by decide, by decide⟩

/-! ## Claim theorems: executor error handling (C9) -/

theorem stepsOf_cons_ok (m : String) (l : List Event) :
    stepsOf (Event.okEv m :: l) = stepsOf l := rfl

theorem stepsOf_cons_warn (m : String) (l : List Event) :
    stepsOf (Event.warnEv m :: l) = stepsOf l := rfl

theorem stepsOf_cons_err (m : String) (l : List Event) :
    stepsOf (Event.errEv m :: l) = stepsOf l := rfl

theorem stepsOf_cons_step (m : String) (l : List Event) :
    stepsOf (Event.stepEv m :: l) = m :: stepsOf l := rfl

theorem errorsOf_cons_ok (m : String) (l : List Event) :
    errorsOf (Event.okEv m :: l) = errorsOf l := rfl

theorem errorsOf_cons_warn (m : String) (l : List Event) :
    errorsOf (Event.warnEv m :: l) = errorsOf l := rfl

theorem errorsOf_cons_step (m : String) (l : List Event) :
    errorsOf (Event.stepEv m :: l) = errorsOf l := rfl

theorem errorsOf_cons_err (m : String) (l : List Event) :
    errorsOf (Event.errEv m :: l) = m :: errorsOf l := rfl

theorem stepsOf_append (l1 l2 : List Event) :
    stepsOf (l1 ++ l2) = stepsOf l1 ++ stepsOf l2 :=
  List.filterMap_append l1 l2 _

theorem errorsOf_append (l1 l2 : List Event) :
    errorsOf (l1 ++ l2) = errorsOf l1 ++ errorsOf l2 :=
  List.filterMap_append l1 l2 _

/-- Unfolding of the executor loop on an out-of-range index. -/
theorem execLoop_cons_out (exec : Int → Except String Unit) (idx : Int) (rest : List Int)
    (hr : idx < 1 ∨ idx > (tasks.length : Int)) :
    execLoop exec (idx :: rest) =
      Event.warnEv ("Skipping invalid index: " ++ toString idx) :: execLoop exec rest := by
  simp only [execLoop, if_pos hr]

/-- Unfolding of the executor loop on an in-range index whose run fails. -/
theorem execLoop_cons_err (exec : Int → Except String Unit) (idx : Int) (rest : List Int)
    (e : String) (hr : ¬(idx < 1 ∨ idx > (tasks.length : Int)))
    (hex : exec idx = Except.error e) :
    execLoop exec (idx :: rest) =
      Event.stepEv
          ("Running: " ++ String.intercalate " " ((tasks.getD (idx.toNat - 1) default).cmd)) ::
        Event.errEv
          ("Error running '" ++ (tasks.getD (idx.toNat - 1) default).label ++ "': " ++ e) ::
        execLoop exec rest := by
  simp only [execLoop, if_neg hr, hex]

/-- Unfolding of the executor loop on an in-range index whose run
succeeds. -/
theorem execLoop_cons_okr (exec : Int → Except String Unit) (idx : Int) (rest : List Int)
    (hr : ¬(idx < 1 ∨ idx > (tasks.length : Int))) (hex : exec idx = Except.ok ()) :
    execLoop exec (idx :: rest) =
      Event.stepEv
          ("Running: " ++ String.intercalate " " ((tasks.getD (idx.toNat - 1) default).cmd)) ::
        Event.okEv "Done\n" :: execLoop exec rest := by
  simp only [execLoop, if_neg hr, hex]

/-- The tasks the executor attempts, in order: exactly the in-range
selected indices, regardless of how each attempt turns out. -/
theorem stepsOf_execLoop (exec : Int → Except String Unit) :
    ∀ sel : List Int,
      stepsOf (execLoop exec sel) =
        (sel.filter fun i => decide (1 ≤ i ∧ i ≤ (tasks.length : Int))).map
          (fun i =>
            "Running: " ++ String.intercalate " " ((tasks.getD (i.toNat - 1) default).cmd)) := by
  intro sel
  induction sel with
  | nil => rfl
  | cons idx rest ih =>
    by_cases hr : idx < 1 ∨ idx > (tasks.length : Int)
    · have hg : ¬ (1 ≤ idx ∧ idx ≤ (tasks.length : Int)) := by
        rintro ⟨h1, h2⟩
        rcases hr with hr | hr <;> omega
      rw [execLoop_cons_out exec idx rest hr, stepsOf_cons_warn, ih, List.filter_cons]
      simp [hg]
    · have hg : 1 ≤ idx ∧ idx ≤ (tasks.length : Int) := by
        constructor <;> omega
      cases hex : exec idx with
      | error e =>
        rw [execLoop_cons_err exec idx rest e hr hex, stepsOf_cons_step, stepsOf_cons_err, ih,
          List.filter_cons]
        simp [hg]
      | ok u =>
        cases u
        rw [execLoop_cons_okr exec idx rest hr hex, stepsOf_cons_step, stepsOf_cons_ok, ih,
          List.filter_cons]
        simp [hg]

/-- The error lines the executor emits: exactly one per failing in-range
selected task, in order, naming that task. -/
theorem errorsOf_execLoop (exec : Int → Except String Unit) :
    ∀ sel : List Int,
      errorsOf (execLoop exec sel) =
        (sel.filter fun i => decide (1 ≤ i ∧ i ≤ (tasks.length : Int))).filterMap
          (fun i =>
            match exec i with
            | Except.error e =>
              some ("Error running '" ++ (tasks.getD (i.toNat - 1) default).label ++ "': " ++ e)
            | Except.ok _ => none) := by
  intro sel
  induction sel with
  | nil => rfl
  | cons idx rest ih =>
    by_cases hr : idx < 1 ∨ idx > (tasks.length : Int)
    · have hg : ¬ (1 ≤ idx ∧ idx ≤ (tasks.length : Int)) := by
        rintro ⟨h1, h2⟩
        rcases hr with hr | hr <;> omega
      rw [execLoop_cons_out exec idx rest hr, errorsOf_cons_warn, ih, List.filter_cons]
      simp [hg]
    · have hg : 1 ≤ idx ∧ idx ≤ (tasks.length : Int) := by
        constructor <;> omega
      cases hex : exec idx with
      | error e =>
        rw [execLoop_cons_err exec idx rest e hr hex, errorsOf_cons_step, errorsOf_cons_err, ih,
          List.filter_cons]
        simp [hg, List.filterMap_cons, hex]
      | ok u =>
        cases u
        rw [execLoop_cons_okr exec idx rest hr hex, errorsOf_cons_step, errorsOf_cons_ok, ih,
          List.filter_cons]
        simp [hg, List.filterMap_cons, hex]

/-- C9: for every non-empty resolved selection, the run exits with success
status (0) no matter how the individual tasks fare; every in-range selected
task is attempted in selection order even when earlier tasks fail; and each
launch failure or non-zero exit is reported as an error naming that task
only. -/
theorem executor_continues_past_failures (noSave : Bool) (saveRes : Except String Unit)
    (sel : List Int) (exec : Int → Except String Unit) (hsel : sel ≠ []) :
    (runPhase noSave saveRes sel exec).2 = 0 ∧
      stepsOf (runPhase noSave saveRes sel exec).1 =
        (sel.filter fun i => decide (1 ≤ i ∧ i ≤ (tasks.length : Int))).map
          (fun i =>
            "Running: " ++ String.intercalate " " ((tasks.getD (i.toNat - 1) default).cmd)) ∧
      errorsOf (runPhase noSave saveRes sel exec).1 =
        (sel.filter fun i => decide (1 ≤ i ∧ i ≤ (tasks.length : Int))).filterMap
          (fun i =>
            match exec i with
            | Except.error e =>
              some ("Error running '" ++ (tasks.getD (i.toNat - 1) default).label ++ "': " ++ e)
            | Except.ok _ => none) := by
  have h1 : (runPhase noSave saveRes sel exec).1 =
      Event.okEv "Executing selected commands...\n" ::
        (execLoop exec sel ++ [Event.okEv "All selected commands executed."]) := by
    simp only [runPhase, if_neg hsel]
  have h2 : (runPhase noSave saveRes sel exec).2 = 0 := by
    simp only [runPhase, if_neg hsel]
  refine ⟨h2, ?_, ?_⟩
  · rw [h1, stepsOf_cons_ok, stepsOf_append, stepsOf_execLoop]
    simp [stepsOf]
  · rw [h1, errorsOf_cons_ok, errorsOf_append, errorsOf_execLoop]
    simp [errorsOf]

/-- C9 witness: selection `[1, 99, 2]` where task 1 fails — the run still
attempts task 2 (the out-of-range 99 is skipped), reports the single error
for task 1, and exits 0. -/
theorem executor_witness :
    (runPhase false (Except.ok ()) [1, 99, 2]
        (fun i => if i = 1 then Except.error "exit status 1" else Except.ok ())).2 = 0 ∧
      stepsOf (runPhase false (Except.ok ()) [1, 99, 2]
          (fun i => if i = 1 then Except.error "exit status 1" else Except.ok ())).1 =
        ["Running: php artisan optimize:clear", "Running: php artisan config:clear"] ∧
      errorsOf (runPhase false (Except.ok ()) [1, 99, 2]
          (fun i => if i = 1 then Except.error "exit status 1" else Except.ok ())).1 =
        ["Error running 'php artisan optimize:clear': exit status 1"] :=
  ⟨(executor_continues_past_failures false (Except.ok ()) [1, 99, 2]
      (fun i => if i = 1 then Except.error "exit status 1" else Except.ok ()) (by decide)).1,
    ((executor_continues_past_failures false (Except.ok ()) [1, 99, 2]
      (fun i => if i = 1 then Except.error "exit status 1" else Except.ok ())
      (by decide)).2.1).trans (by decide),
    ((executor_continues_past_failures false (Except.ok ()) [1, 99, 2]
      (fun i => if i = 1 then Except.error "exit status 1" else Except.ok ())
      (by decide)).2.2).trans (by decide)⟩

end ArtisanRunner
